import Mathlib

set_option maxHeartbeats 1000000

/-!
Shallow embedding of the contract-management API (Express/Postgres) in Lean.
The HTTP layer is modelled as pure functions over explicit request and store
values; the store's primitives (password `crypt` comparison, URI decoding)
are taken as function parameters, since they live outside the repository.
-/

namespace ContractApi

/-- JavaScript number: NaN, the signed infinities, or a finite value
(modelled as a rational; double-precision rounding is not modelled, none of
the verified properties depend on it). -/
inductive JsNum where
  | nan
  | posInf
  | negInf
  | finite (q : ℚ)
deriving DecidableEq

/-- JavaScript value as it appears in JSON payloads and query strings. -/
inductive JsVal where
  | vUndef
  | vNull
  | vBool (b : Bool)
  | vNum (n : JsNum)
  | vStr (s : String)
deriving DecidableEq

/-- The trim of the host language: leading and trailing whitespace removed.
Implemented structurally over the character list so that concrete instances
evaluate inside the kernel. -/
def jsTrim (s : String) : String :=
  String.mk (((s.toList.dropWhile Char.isWhitespace).reverse.dropWhile
    Char.isWhitespace).reverse)

/-- toLowerCase of the host language. -/
def jsToLower (s : String) : String :=
  String.mk (s.toList.map Char.toLower)

/-- split on a one-character separator, as the host language's split(';')
and split('='): n separators yield n+1 pieces, empty pieces kept. -/
def splitListOnChar (sep : Char) : List Char → List (List Char)
  | [] => [[]]
  | c :: rest =>
      let r := splitListOnChar sep rest
      if c = sep then [] :: r
      else
        match r with
        | [] => [[c]]
        | h :: t => (c :: h) :: t

def splitOnChar (sep : Char) (s : String) : List String :=
  (splitListOnChar sep s.toList).map String.mk

/-- startsWith of the host language. -/
def strStartsWith (s pat : String) : Bool := pat.toList.isPrefixOf s.toList

/-- endsWith of the host language. -/
def strEndsWith (s pat : String) : Bool := pat.toList.isSuffixOf s.toList

/-- String(v) of the host language, for the values that can reach
`coerceBoolean`.  A finite non-integer number is rendered as `num/den`
rather than in decimal; neither rendering is in the boolean vocabulary, so
`coerceBoolean` behaves identically. -/
def jsToString : JsVal → String
  | .vUndef => "undefined"
  | .vNull => "null"
  | .vBool b => if b then "true" else "false"
  | .vNum .nan => "NaN"
  | .vNum .posInf => "Infinity"
  | .vNum .negInf => "-Infinity"
  | .vNum (.finite q) =>
      if q.den = 1 then toString q.num
      else toString q.num ++ "/" ++ toString q.den
  | .vStr s => s

def digitVal (c : Char) : Option Nat :=
  if c.isDigit then some (c.toNat - 48) else none

/-- A non-empty all-digit run of characters read as a natural number. -/
def parseNatDigits (cs : List Char) : Option Nat :=
  if cs.isEmpty then none
  else
    cs.foldl
      (fun acc c =>
        match acc, digitVal c with
        | some n, some d => some (n * 10 + d)
        | _, _ => none)
      (some 0)

/-- Split a character list at the first character satisfying `p`; the second
component is `none` when no such character occurs. -/
def splitAtChar (p : Char → Bool) : List Char → List Char × Option (List Char)
  | [] => ([], none)
  | c :: rest =>
      if p c then ([], some rest)
      else
        let r := splitAtChar p rest
        (c :: r.1, r.2)

/-- Unsigned decimal mantissa: digits, optionally with one dot, at least one
digit in total. -/
def parseMantissa (cs : List Char) : Option ℚ :=
  let split := splitAtChar (fun c => c = '.') cs
  match split.2 with
  | none => (parseNatDigits split.1).map (fun n => (n : ℚ))
  | some frac =>
      if split.1.isEmpty && frac.isEmpty then none
      else
        let ipart : Option Nat := if split.1.isEmpty then some 0 else parseNatDigits split.1
        let fpart : Option ℚ :=
          if frac.isEmpty then some 0
          else (parseNatDigits frac).map (fun n => (n : ℚ) / (10 : ℚ) ^ frac.length)
        match ipart, fpart with
        | some i, some f => some ((i : ℚ) + f)
        | _, _ => none

def parseSignedInt (cs : List Char) : Option ℤ :=
  match cs with
  | '+' :: r => (parseNatDigits r).map (fun n => (n : ℤ))
  | '-' :: r => (parseNatDigits r).map (fun n => -(n : ℤ))
  | _ => (parseNatDigits cs).map (fun n => (n : ℤ))

def parseDecimalMagnitude (cs : List Char) : Option ℚ :=
  let split := splitAtChar (fun c => c = 'e' || c = 'E') cs
  match parseMantissa split.1, split.2 with
  | some m, none => some m
  | some m, some ecs => (parseSignedInt ecs).map (fun e => m * (10 : ℚ) ^ e)
  | none, _ => none

def parseSignedDecimal : List Char → Option ℚ
  | '+' :: rest => parseDecimalMagnitude rest
  | '-' :: rest => (parseDecimalMagnitude rest).map (fun q => -q)
  | cs => parseDecimalMagnitude cs

/-- Number(s) of the host language on a string: whitespace-only strings read
as 0, Infinity literals are honoured, otherwise a signed decimal literal with
optional fraction and exponent.  Hex/octal/binary literal forms read as NaN
here; no verified property depends on them, since every finite value is
clamped or truncated the same way. -/
def parseJsNumber (s : String) : JsNum :=
  let t := jsTrim s
  if t = "" then .finite 0
  else if t = "Infinity" || t = "+Infinity" then .posInf
  else if t = "-Infinity" then .negInf
  else
    match parseSignedDecimal t.toList with
    | some q => .finite q
    | none => .nan

/-- Number(v) of the host language. -/
def jsToNumber : JsVal → JsNum
  | .vUndef => .nan
  | .vNull => .finite 0
  | .vBool b => .finite (if b then 1 else 0)
  | .vNum n => n
  | .vStr s => parseJsNumber s

def BOOL_TRUE_TOKENS : List String := ["true", "1", "yes", "y", "on"]

def BOOL_FALSE_TOKENS : List String := ["false", "0", "no", "n", "off"]

/-- The normalized form `String(v).trim().toLowerCase()` the boolean
coercion compares against its vocabularies. -/
def normalizeToken (v : JsVal) : String := jsToLower (jsTrim (jsToString v))

/-- coerceBoolean of the contracts route (src/unnamed/part_001, lines
198-205). -/
def coerceBoolean (v : JsVal) : JsVal :=
  if v = .vNull || v = .vUndef || v = .vStr "" then .vNull
  else
    match v with
    | .vBool b => .vBool b
    | _ =>
      if BOOL_TRUE_TOKENS.contains (normalizeToken v) then .vBool true
      else if BOOL_FALSE_TOKENS.contains (normalizeToken v) then .vBool false
      else .vNull

/-- Math.trunc on a finite number: round toward zero. -/
def ratTrunc (q : ℚ) : ℤ := if q < 0 then ⌈q⌉ else ⌊q⌋

/-- coerceInteger of the contracts route (src/unnamed/part_001, lines
207-212): Number(v), non-finite results become null, finite ones are
truncated toward zero. -/
def coerceInteger (v : JsVal) : JsVal :=
  if v = .vNull || v = .vUndef || v = .vStr "" then .vNull
  else
    match jsToNumber v with
    | .finite q => .vNum (.finite ((ratTrunc q : ℤ) : ℚ))
    | _ => .vNull

/-- The whitelisted contract fields (src/unnamed/part_001, lines 175-196). -/
def FIELDS : List String :=
  ["title", "counterparty_name", "counterparty_contact", "counterparty_email",
   "internal_owner", "department", "department_id", "contract_type", "status",
   "status_id", "signed_date", "effective_date", "start_date", "end_date",
   "auto_renew", "renewal_term_months", "termination_notice_days",
   "termination_notice_deadline", "notes", "file_name"]

/-- The integer-typed fields named in the sanitisation loops. -/
def INTEGER_FIELDS : List String :=
  ["renewal_term_months", "termination_notice_days", "department_id", "status_id"]

/-- A JSON object, as an association list keyed by field name. -/
abbrev Payload := List (String × JsVal)

/-- The per-field body shared by both sanitisation loops: boolean coercion for
auto_renew, integer coercion for the integer fields, trimming for strings,
empty string to null. -/
def sanitizeField (k : String) (v : JsVal) : JsVal :=
  let v1 := if k = "auto_renew" then coerceBoolean v else v
  let v2 := if INTEGER_FIELDS.contains k then coerceInteger v1 else v1
  let v3 := match v2 with
            | .vStr s => .vStr (jsTrim s)
            | w => w
  if v3 = .vStr "" then .vNull else v3

/-- sanitizeCreatePayload (src/unnamed/part_001, lines 214-225): fields whose
value is absent or undefined are omitted. -/
def sanitizeCreatePayload (payload : Payload) : Payload :=
  FIELDS.filterMap (fun k =>
    match payload.lookup k with
    | none => none
    | some .vUndef => none
    | some v => some (k, sanitizeField k v))

/-- sanitizePatchPayload (src/unnamed/part_001, lines 227-238): fields are
kept whenever the key is present in the payload, even with value null or
undefined. -/
def sanitizePatchPayload (payload : Payload) : Payload :=
  FIELDS.filterMap (fun k =>
    match payload.lookup k with
    | none => none
    | some v => some (k, sanitizeField k v))

/-- True for the values the host language's loose equality `== null` accepts:
a missing key, null, or undefined. -/
def isNullish : Option JsVal → Bool
  | none => true
  | some .vNull => true
  | some .vUndef => true
  | some _ => false

/-- The lookup tables the contracts route resolves names against. -/
structure LookupTables where
  departments : List (ℤ × String)
  statuses : List (ℤ × String)
deriving DecidableEq

/-- The store query `SELECT ... WHERE lower(name) = lower($1) LIMIT 1`:
first row whose name matches case-insensitively. -/
def lookupByNameCI (table : List (ℤ × String)) (name : String) : Option ℤ :=
  (table.find? (fun row => jsToLower row.2 == jsToLower name)).map (fun row => row.1)

/-- The per-entry body of a field re-assignment. -/
def setKeyEntry (k : String) (v : JsVal) (kv : String × JsVal) : String × JsVal :=
  if kv.1 = k then (k, v) else kv

/-- Object-field assignment on a payload: replace the binding if the key is
present, otherwise append it. -/
def setKey (data : Payload) (k : String) (v : JsVal) : Payload :=
  if (data.lookup k).isSome then data.map (setKeyEntry k v)
  else data ++ [(k, v)]

/-- The department block of resolveIdsFromNames (src/unnamed/part_001,
lines 298-301): when the id is null/absent and the name is a string with
non-blank trim, look the trimmed name up case-insensitively and substitute
the resolved id; otherwise leave the record as it is. -/
def resolveDeptStep (t : LookupTables) (data : Payload) : Payload :=
  if isNullish (data.lookup "department_id") then
    match data.lookup "department" with
    | some (.vStr s) =>
        if jsTrim s ≠ "" then
          match lookupByNameCI t.departments (jsTrim s) with
          | some i => setKey data "department_id" (.vNum (.finite (i : ℚ)))
          | none => data
        else data
    | _ => data
  else data

/-- The status block of resolveIdsFromNames (src/unnamed/part_001, lines
302-305), same shape against the status table. -/
def resolveStatusStep (t : LookupTables) (data : Payload) : Payload :=
  if isNullish (data.lookup "status_id") then
    match data.lookup "status" with
    | some (.vStr s) =>
        if jsTrim s ≠ "" then
          match lookupByNameCI t.statuses (jsTrim s) with
          | some i => setKey data "status_id" (.vNum (.finite (i : ℚ)))
          | none => data
        else data
    | _ => data
  else data

/-- resolveIdsFromNames (src/unnamed/part_001, lines 296-307): the
department block then the status block, in source order. -/
def resolveIdsFromNames (t : LookupTables) (data : Payload) : Payload :=
  resolveStatusStep t (resolveDeptStep t data)

/-- JavaScript `a || b` on numbers: NaN and 0 are falsy. -/
def numOr (a b : JsNum) : JsNum :=
  if a = .nan || a = .finite 0 then b else a

/-- Math.max on two JavaScript numbers. -/
def jsMax (a b : JsNum) : JsNum :=
  match a, b with
  | .nan, _ => .nan
  | _, .nan => .nan
  | .posInf, _ => .posInf
  | _, .posInf => .posInf
  | .negInf, y => y
  | x, .negInf => x
  | .finite x, .finite y => .finite (max x y)

/-- Math.min on two JavaScript numbers. -/
def jsMin (a b : JsNum) : JsNum :=
  match a, b with
  | .nan, _ => .nan
  | _, .nan => .nan
  | .negInf, _ => .negInf
  | _, .negInf => .negInf
  | .posInf, y => y
  | x, .posInf => x
  | .finite x, .finite y => .finite (min x y)

/-- Number(q) of a query-string parameter: a missing parameter is undefined,
so NaN. -/
def queryNumber : Option String → JsNum
  | none => .nan
  | some s => parseJsNumber s

/-- The effective limit of the contract list route (src/unnamed/part_001,
line 246): `Math.min(Math.max(Number(req.query.limit) || 200, 1), 1000)`. -/
def listLimit (q : Option String) : JsNum :=
  jsMin (jsMax (numOr (queryNumber q) (.finite 200)) (.finite 1)) (.finite 1000)

/-- The effective offset of the contract list route (src/unnamed/part_001,
line 247): `Math.max(Number(req.query.offset) || 0, 0)`. -/
def listOffset (q : Option String) : JsNum :=
  jsMax (numOr (queryNumber q) (.finite 0)) (.finite 0)

/-- An account row of the user_account table, as the auth routes read it. -/
structure Account where
  user_id : ℕ
  username : String
  name : String
  status : String
  password_hash : String
  password_must_change : Bool
  last_login_at : Option ℕ
  created_at : ℕ
deriving DecidableEq

/-- A row of the user_session table (the last-seen timestamp, touched only by
the best-effort activity update, is not modelled). -/
structure Session where
  session_id : String
  user_id : ℕ
deriving DecidableEq

/-- The durable store: the two tables the auth layer touches. -/
structure Store where
  accounts : List Account
  sessions : List Session
deriving DecidableEq

/-- The session/account join of fetchUserBySession (src/src/routes/auth.js,
lines 64-74). -/
def fetchUserBySession (st : Store) (sid : String) : Option Account :=
  match st.sessions.find? (fun s => s.session_id == sid) with
  | none => none
  | some s => st.accounts.find? (fun a => a.user_id == s.user_id)

/-- An inbound HTTP request, reduced to the parts the auth layer reads.
Header values are single strings (repeated headers arriving as arrays are
not modelled). -/
structure Request where
  method : String
  path : String
  cookieHeader : Option String
  xSessionId : Option String
  authorization : Option String
deriving DecidableEq

/-- The configured session cookie name (its environment default). -/
def SESSION_COOKIE_NAME : String := "cm_session"

/-- The cookie-header scan inside extractSessionId: split on ';', trim each
cookie, split on '=', first cookie whose key is the session cookie name wins;
its value is the remainder rejoined on '='. -/
def cookieSessionValue (ch : String) : Option String :=
  (splitOnChar ';' ch).findSome? (fun cookie =>
    match splitOnChar '=' (jsTrim cookie) with
    | [] => none
    | key :: rest =>
        if key = SESSION_COOKIE_NAME then some (String.intercalate "=" rest)
        else none)

/-- The bearer-token branch of extractSessionId: a case-insensitive
"Bearer " start, then the rest of the header trimmed, kept only if
non-empty. -/
def bearerToken (auth : String) : Option String :=
  if strStartsWith (jsToLower auth) "bearer " then
    let token := jsTrim (auth.drop 7)
    if token ≠ "" then some token else none
  else none

/-- extractSessionId (src/src/routes/auth.js, lines 32-56). `decode` is the
host language's decodeURIComponent, external to the repository. A cookie
header that is the empty string is falsy and skipped, as in the source. -/
def extractSessionId (decode : String → String) (req : Request) : Option String :=
  let fromCookie : Option String :=
    match req.cookieHeader with
    | some ch => if ch ≠ "" then (cookieSessionValue ch).map decode else none
    | none => none
  match fromCookie with
  | some v => some v
  | none =>
      match req.xSessionId with
      | some h =>
          if jsTrim h ≠ "" then some (jsTrim h)
          else
            match req.authorization with
            | some a => bearerToken a
            | none => none
      | none =>
          match req.authorization with
          | some a => bearerToken a
          | none => none

/-- The exempt (unauthenticated) paths of the app entry
(src/src/routes/departments.js, line 84 of the combined file). -/
def AUTH_EXEMPT_PATHS : List String := ["/auth/login", "/auth/logout"]

/-- `pathname.replace(/\/+$/, '')`: remove every trailing slash. -/
def stripTrailingSlashes (p : String) : String :=
  String.mk ((p.toList.reverse.dropWhile (fun c => c = '/')).reverse)

/-- JavaScript charAt, for in-range use: out-of-range yields a character that
is never a slash, as the empty string the host returns never equals '/'. -/
def charAt (s : String) (i : ℕ) : Char :=
  s.toList.getD i (Char.ofNat 0)

/-- isAuthExemptPath (src/src/routes/departments.js, lines 86-100 of the
combined file): exact match after trailing-slash stripping, or a
path-segment suffix match (the exempt path preceded by a slash). -/
def isAuthExemptPath (pathname : String) : Bool :=
  if pathname = "" then false
  else
    let normalized := if pathname.length > 1 then stripTrailingSlashes pathname else pathname
    if AUTH_EXEMPT_PATHS.contains normalized then true
    else
      AUTH_EXEMPT_PATHS.any (fun ex =>
        decide (normalized.length > ex.length) &&
        strEndsWith normalized ex &&
        (charAt normalized (normalized.length - ex.length - 1) == '/'))

/-- The paths still allowed while a password change is pending
(src/src/routes/departments.js, line 154 of the combined file). -/
def PASSWORD_CHANGE_ALLOWED : List String :=
  ["/auth/change-password", "/auth/logout", "/auth/me", "/health"]

/-- What the auth-gate middleware does with a request: call next() (with the
resolved account attached when identity was checked), or short-circuit with a
status, error message, and possibly a cleared session cookie. -/
inductive GateStep where
  | next (user : Option Account)
  | reject (status : ℕ) (errorMsg : String) (cookieCleared : Bool)
deriving DecidableEq

/-- The global auth-gate middleware (src/src/routes/departments.js, lines
129-164 of the combined file).  OPTIONS and exempt paths pass through; a
falsy (missing or empty) session id or an unresolved session yields 401 with
the cookie cleared; a resolved account with password_must_change set is
rejected 403 unless the path is in the allow-list.  The best-effort
last-seen update is fire-and-forget and not modelled. -/
def authGate (decode : String → String) (st : Store) (req : Request) : GateStep :=
  if req.method = "OPTIONS" || isAuthExemptPath req.path then .next none
  else
    match extractSessionId decode req with
    | none => .reject 401 "Not authenticated" true
    | some sid =>
        if sid = "" then .reject 401 "Not authenticated" true
        else
          match fetchUserBySession st sid with
          | none => .reject 401 "Not authenticated" true
          | some user =>
              if user.password_must_change && !(PASSWORD_CHANGE_ALLOWED.contains req.path) then
                .reject 403 "Password change required" false
              else .next (some user)

/-- Where a request ends up after the middleware chain: a short-circuit
response, or the matched handler with the attached identity. -/
inductive PipelineResult where
  | response (status : ℕ) (errorMsg : Option String) (cookieCleared : Bool)
  | handler (path : String) (user : Option Account)
deriving DecidableEq

/-- The app's middleware chain in order (src/src/routes/departments.js,
lines 103-172 of the combined file): the CORS middleware answers OPTIONS
with 204 before the auth gate runs; otherwise the gate either
short-circuits or the request reaches its matched handler. -/
def handleRequest (decode : String → String) (st : Store) (req : Request) : PipelineResult :=
  if req.method = "OPTIONS" then .response 204 none false
  else
    match authGate decode st req with
    | .next u => .handler req.path u
    | .reject s m c => .response s (some m) c

/-- The allowed account statuses (src/src/routes/auth.js, line 8). -/
def USER_STATUSES : List String := ["pending", "active", "inactive"]

/-- How the login handler leaves: each constructor is one `return` site. -/
inductive LoginOutcome where
  | badRequest
  | invalidCredentials
  | forbidden (msg : String)
  | success (sessionId : String) (user : Account)
  | serverError
deriving DecidableEq

/-- The HTTP status each login exit responds with. -/
def LoginOutcome.httpStatus : LoginOutcome → ℕ
  | .badRequest => 400
  | .invalidCredentials => 401
  | .forbidden _ => 403
  | .success _ _ => 200
  | .serverError => 500

/-- The error body each login exit responds with (none on success). -/
def LoginOutcome.errorMessage : LoginOutcome → Option String
  | .badRequest => some "username and password are required"
  | .invalidCredentials => some "Invalid username or password"
  | .forbidden m => some m
  | .success _ _ => none
  | .serverError => some "Internal server error"

/-- One observed run of the login handler: its outcome, the committed store
it leaves behind, and whether the checked-out connection was returned to the
pool on exit. -/
structure LoginExec where
  outcome : LoginOutcome
  store : Store
  released : Bool
deriving DecidableEq

/-- The credential query of the login handler: first account whose username
equals the normalized input and whose stored hash equals
`crypt(password, stored hash)` (the store's one-way comparison). -/
def findCredential (crypt : String → String → String) (st : Store)
    (username password : String) : Option Account :=
  st.accounts.find? (fun a =>
    a.username == username && a.password_hash == crypt password a.password_hash)

/-- The login UPDATE: promote pending to active and refresh last_login_at,
on the one account row. -/
def promoteAccount (uid : ℕ) (now : ℕ) (st : Store) : Store :=
  { st with
    accounts := st.accounts.map (fun a =>
      if a.user_id = uid then
        { a with
          status := if a.status = "pending" then "active" else a.status,
          last_login_at := some now }
      else a) }

/-- The login INSERT: add the session row. -/
def insertSession (sid : String) (uid : ℕ) (st : Store) : Store :=
  { st with sessions := st.sessions ++ [⟨sid, uid⟩] }

/-- The login handler (src/src/routes/auth.js, lines 76-145) with its
transaction made explicit.  Store statements run against a transaction-local
copy that reaches the durable store only at COMMIT (the success exit);
ROLLBACK discards it, so every other exit leaves the store unchanged.
`failAt` injects a thrown store error just before a numbered step (0 BEGIN,
1 SELECT, 2 UPDATE, 3 INSERT, 4 COMMIT); the catch block then rolls back,
releases the connection and answers 500.  `newSid` stands for the freshly
generated random UUID and `now` for NOW().  `released` records that no
connection is still checked out when the handler returns (the 400 exit
happens before any connection is acquired). -/
def normalizeStatus (a : Account) : String := jsToLower (jsTrim a.status)

def loginExec (crypt : String → String → String) (failAt : Option ℕ) (st : Store)
    (username password newSid : String) (now : ℕ) : LoginExec :=
  if username = "" || password = "" then ⟨.badRequest, st, true⟩
  else if failAt = some 0 then ⟨.serverError, st, true⟩
  else if failAt = some 1 then ⟨.serverError, st, true⟩
  else
    match findCredential crypt st (jsToLower (jsTrim username)) password with
    | none => ⟨.invalidCredentials, st, true⟩
    | some user =>
        if !(USER_STATUSES.contains (normalizeStatus user)) || normalizeStatus user = "inactive" then
          ⟨.forbidden (if normalizeStatus user = "inactive" then "User account is inactive"
                       else "User status does not permit login"), st, true⟩
        else if failAt = some 2 then ⟨.serverError, st, true⟩
        else if failAt = some 3 then ⟨.serverError, st, true⟩
        else if failAt = some 4 then ⟨.serverError, st, true⟩
        else ⟨.success newSid user,
              insertSession newSid user.user_id (promoteAccount user.user_id now st), true⟩

/-- What the logout handler returns: always a status and a cleared cookie,
plus the store it leaves behind. -/
structure LogoutResult where
  status : ℕ
  cookieCleared : Bool
  store : Store
deriving DecidableEq

/-- The logout DELETE: remove every session row with the given id. -/
def deleteSession (sid : String) (st : Store) : Store :=
  { st with sessions := st.sessions.filter (fun s => s.session_id ≠ sid) }

/-- The logout handler (src/src/routes/auth.js, lines 147-159): delete the
session row when a truthy session id was extracted, always clear the cookie,
always answer 204. -/
def logout (decode : String → String) (st : Store) (req : Request) : LogoutResult :=
  match extractSessionId decode req with
  | some sid => if sid ≠ "" then ⟨204, true, deleteSession sid st⟩ else ⟨204, true, st⟩
  | none => ⟨204, true, st⟩

/-! ## Theorems -/

/-- C10: every request with method OPTIONS is answered 204 by the CORS
middleware before the auth gate runs, the gate itself would pass OPTIONS
through unconditionally, and no OPTIONS request ever receives 401 or 403,
whatever the store holds and whatever session material the request
carries. -/
theorem options_requests_never_gated (decode : String → String) (st : Store)
    (req : Request) (hm : req.method = "OPTIONS") :
    handleRequest decode st req = .response 204 none false ∧
    authGate decode st req = .next none ∧
    ∀ s m c, handleRequest decode st req = .response s m c → s ≠ 401 ∧ s ≠ 403 := by
  refine ⟨?_, ?_, ?_⟩
  · simp [handleRequest, hm]
  · simp [authGate, hm]
  · intro s m c h
    simp [handleRequest, hm] at h
    omega

/-- C10 witness: a concrete OPTIONS request to a gated path with no session
material, against an empty store. -/
theorem options_requests_never_gated_witness :
    handleRequest (fun s => s) ⟨[], []⟩ ⟨"OPTIONS", "/contracts", none, none, none⟩ =
      .response 204 none false :=
  (options_requests_never_gated (fun s => s) ⟨[], []⟩
    ⟨"OPTIONS", "/contracts", none, none, none⟩ rfl).1

/-- C1 counterexample: the claim quantifies over every inbound request, but
an OPTIONS request to the non-exempt path /contracts with no session
material at all is answered 204 by the CORS middleware — the gate never
responds 401 and no cookie is cleared. -/
theorem unauthenticated_options_request_not_401 :
    isAuthExemptPath "/contracts" = false ∧
    extractSessionId (fun s => s) ⟨"OPTIONS", "/contracts", none, none, none⟩ = none ∧
    handleRequest (fun s => s) ⟨[], []⟩ ⟨"OPTIONS", "/contracts", none, none, none⟩ =
      .response 204 none false ∧
    PipelineResult.response 204 none false ≠
      .response 401 (some "Not authenticated") true := by
  refine ⟨by decide, rfl, rfl, by decide⟩

/-- C1 (amended to requests whose method is not OPTIONS, the carve-out the
counterexample forces): for every non-OPTIONS request to a non-exempt path,
if the extracted session identifier is absent or resolves to no account row,
the gate answers 401 with an error body and a cleared session cookie, and
the matched handler is never reached. -/
theorem unauthenticated_request_rejected (decode : String → String) (st : Store)
    (req : Request) (hm : req.method ≠ "OPTIONS")
    (hx : isAuthExemptPath req.path = false)
    (hs : ∀ sid, extractSessionId decode req = some sid → fetchUserBySession st sid = none) :
    handleRequest decode st req = .response 401 (some "Not authenticated") true := by
  simp only [handleRequest, authGate, hm, hx, if_false, Bool.or_false, decide_eq_true_eq,
    if_neg hm]
  cases h : extractSessionId decode req with
  | none => simp [h]
  | some sid =>
      have hf := hs sid h
      by_cases hsid : sid = ""
      · simp [h, hsid]
      · simp [h, hsid, hf]

/-- C1 witness: a GET of /contracts with no cookie, header or bearer token,
against an empty store, is answered 401 with the cookie cleared. -/
theorem unauthenticated_request_rejected_witness :
    handleRequest (fun s => s) ⟨[], []⟩ ⟨"GET", "/contracts", none, none, none⟩ =
      .response 401 (some "Not authenticated") true :=
  unauthenticated_request_rejected (fun s => s) ⟨[], []⟩
    ⟨"GET", "/contracts", none, none, none⟩ (by decide) (by decide)
    (fun sid h => by exact Option.noConfusion h)

/-- C2: for every request that passes identity resolution (non-OPTIONS,
non-exempt path, a truthy session id that resolves to an account) with the
account's must-change-password flag set, the gate forwards the request to
its handler exactly when the path is in the change-password allow-list, and
rejects every other path 403 "Password change required"; the check is a pure
function of the current request, hence re-run on every request. -/
theorem password_change_gate_enforced (decode : String → String) (st : Store)
    (req : Request) (sid : String) (user : Account)
    (hm : req.method ≠ "OPTIONS") (hx : isAuthExemptPath req.path = false)
    (he : extractSessionId decode req = some sid) (hsid : sid ≠ "")
    (hf : fetchUserBySession st sid = some user)
    (hmc : user.password_must_change = true) :
    handleRequest decode st req =
      (if PASSWORD_CHANGE_ALLOWED.contains req.path then .handler req.path (some user)
       else .response 403 (some "Password change required") false) := by
  by_cases hc : req.path ∈ PASSWORD_CHANGE_ALLOWED <;>
    simp [handleRequest, authGate, hm, hx, he, hsid, hf, hmc, hc]

/-- C2 witness: an account that must change its password, with a valid
session, requesting /contracts, is rejected 403. -/
theorem password_change_gate_enforced_witness :
    handleRequest (fun s => s)
        ⟨[⟨1, "alice", "Alice", "active", "h", true, none, 0⟩], [⟨"sid1", 1⟩]⟩
        ⟨"GET", "/contracts", some "cm_session=sid1", none, none⟩ =
      .response 403 (some "Password change required") false := by
  have h := password_change_gate_enforced (fun s => s)
    ⟨[⟨1, "alice", "Alice", "active", "h", true, none, 0⟩], [⟨"sid1", 1⟩]⟩
    ⟨"GET", "/contracts", some "cm_session=sid1", none, none⟩ "sid1"
    ⟨1, "alice", "Alice", "active", "h", true, none, 0⟩
    (by decide) (by decide) (by decide) (by decide) (by decide) rfl
  simpa using h

/-- C9: for every contract list request the effective limit is a finite
value in [1, 1000], defaulting to 200 when the parameter is absent, and the
effective offset is a finite value at least 0, defaulting to 0 when absent:
out-of-range inputs are brought into range before the query runs. -/
theorem list_pagination_clamped (ql qo : Option String) :
    (∃ x : ℚ, listLimit ql = .finite x ∧ 1 ≤ x ∧ x ≤ 1000) ∧
    ((∃ y : ℚ, listOffset qo = .finite y ∧ 0 ≤ y) ∨ listOffset qo = .posInf) ∧
    (ql = none → listLimit ql = .finite 200) ∧
    (qo = none → listOffset qo = .finite 0) := by
  refine ⟨?_, ?_, ?_, ?_⟩
  · cases h : queryNumber ql with
    | nan => exact ⟨200, by rw [listLimit, h]; decide, by norm_num, by norm_num⟩
    | posInf => exact ⟨1000, by rw [listLimit, h]; decide, by norm_num, by norm_num⟩
    | negInf => exact ⟨1, by rw [listLimit, h]; decide, by norm_num, by norm_num⟩
    | finite x =>
        by_cases hx : x = 0
        · exact ⟨200, by rw [listLimit, h, hx]; decide, by norm_num, by norm_num⟩
        · refine ⟨min (max x 1) 1000, by simp [listLimit, h, hx, numOr, jsMax, jsMin], ?_, ?_⟩
          · exact le_min (le_max_right x 1) (by norm_num)
          · exact min_le_right _ _
  · cases h : queryNumber qo with
    | nan => exact Or.inl ⟨0, by rw [listOffset, h]; decide, by norm_num⟩
    | posInf => exact Or.inr (by rw [listOffset, h]; decide)
    | negInf => exact Or.inl ⟨0, by rw [listOffset, h]; decide, by norm_num⟩
    | finite y =>
        by_cases hy : y = 0
        · exact Or.inl ⟨0, by rw [listOffset, h, hy]; decide, by norm_num⟩
        · exact Or.inl ⟨max y 0, by simp [listOffset, h, hy, numOr, jsMax], le_max_right y 0⟩
  · intro h; subst h; rfl
  · intro h; subst h; rfl

/-- C9 witness: concrete out-of-range inputs are clamped. -/
theorem list_pagination_clamped_witness :
    (∃ x : ℚ, listLimit (some "5000") = .finite x ∧ 1 ≤ x ∧ x ≤ 1000) ∧
    listLimit (some "5000") = .finite 1000 ∧
    listLimit (some "-7") = .finite 1 ∧
    listOffset (some "-3") = .finite 0 ∧
    listLimit none = .finite 200 ∧
    listOffset none = .finite 0 :=
  ⟨(list_pagination_clamped (some "5000") (some "-3")).1, by decide, by decide, by decide,
    (list_pagination_clamped none none).2.2.1 rfl,
    (list_pagination_clamped none none).2.2.2 rfl⟩

/-- Every run of the login handler releases its connection, and its store
either is untouched (with no success reported) or carries exactly the
promotion plus the new session row (with success reported). -/
theorem loginExec_cases (crypt : String → String → String) (failAt : Option ℕ)
    (st : Store) (u p sid : String) (now : ℕ) :
    (loginExec crypt failAt st u p sid now).released = true ∧
    (((loginExec crypt failAt st u p sid now).store = st ∧
       ∀ s acc, (loginExec crypt failAt st u p sid now).outcome ≠ .success s acc) ∨
     ∃ acc, (loginExec crypt failAt st u p sid now).outcome = .success sid acc ∧
       (loginExec crypt failAt st u p sid now).store =
         insertSession sid acc.user_id (promoteAccount acc.user_id now st)) := by
  unfold loginExec
  repeat' split
  all_goals
    first
      | exact ⟨rfl, Or.inl ⟨rfl, fun s acc h => nomatch h⟩⟩
      | exact ⟨rfl, Or.inr ⟨_, rfl, rfl⟩⟩

/-- C4: the login operation is atomic.  For every failure injection point,
the connection is released on every exit path; when the run reports success
the committed store is exactly the original store with the status promotion,
the last-login refresh and the new session row applied together; and on
every exit that is not a success the committed store is unchanged — never a
promotion without its session nor a session without its promotion. -/
theorem login_transaction_atomic (crypt : String → String → String)
    (failAt : Option ℕ) (st : Store) (u p sid : String) (now : ℕ) :
    (loginExec crypt failAt st u p sid now).released = true ∧
    (∀ s acc, (loginExec crypt failAt st u p sid now).outcome = .success s acc →
      s = sid ∧
      (loginExec crypt failAt st u p sid now).store =
        insertSession sid acc.user_id (promoteAccount acc.user_id now st)) ∧
    ((∀ s acc, (loginExec crypt failAt st u p sid now).outcome ≠ .success s acc) →
      (loginExec crypt failAt st u p sid now).store = st) := by
  obtain ⟨hrel, hcases⟩ := loginExec_cases crypt failAt st u p sid now
  refine ⟨hrel, ?_, ?_⟩
  · intro s acc h
    rcases hcases with ⟨_, hne⟩ | ⟨acc', hout, hst⟩
    · exact absurd h (hne s acc)
    · rw [hout] at h
      injection h with h1 h2
      subst h1
      subst h2
      exact ⟨rfl, hst⟩
  · intro hne
    rcases hcases with ⟨hst, _⟩ | ⟨acc', hout, _⟩
    · exact hst
    · exact absurd hout (hne sid acc')

/-- C4 witness: a successful concrete login run commits exactly the
promotion plus the session row and releases its connection. -/
theorem login_transaction_atomic_witness :
    (loginExec (fun pw _ => pw) none
        ⟨[⟨1, "alice", "Alice", "pending", "pw", false, none, 0⟩], []⟩
        "Alice " "pw" "s1" 7).released = true ∧
    (loginExec (fun pw _ => pw) none
        ⟨[⟨1, "alice", "Alice", "pending", "pw", false, none, 0⟩], []⟩
        "Alice " "pw" "s1" 7).store =
      insertSession "s1" 1 (promoteAccount 1 7
        ⟨[⟨1, "alice", "Alice", "pending", "pw", false, none, 0⟩], []⟩) := by
  have h := login_transaction_atomic (fun pw _ => pw) none
    ⟨[⟨1, "alice", "Alice", "pending", "pw", false, none, 0⟩], []⟩ "Alice " "pw" "s1" 7
  exact ⟨h.1, (h.2.1 "s1" ⟨1, "alice", "Alice", "pending", "pw", false, none, 0⟩
    (by decide)).2⟩

/-- C3: login outcomes under a fault-free run with both fields supplied.
When no stored account matches the normalized (trimmed, lowercased) username
together with the crypt comparison of the password — covering both an
unknown username and a wrong password — the outcome is the single constant
invalidCredentials exit, 401 with the one generic message, so the two causes
are indistinguishable to the caller.  When an account matches: active or
pending status answers 200 carrying the freshly generated session id;
inactive answers 403 "User account is inactive"; a status outside
{pending, active, inactive} answers 403 "User status does not permit
login". -/
theorem login_outcomes (crypt : String → String → String) (st : Store)
    (u p sid : String) (now : ℕ) (hu : u ≠ "") (hp : p ≠ "") :
    (findCredential crypt st (jsToLower (jsTrim u)) p = none →
      (loginExec crypt none st u p sid now).outcome = .invalidCredentials ∧
      LoginOutcome.invalidCredentials.httpStatus = 401 ∧
      LoginOutcome.invalidCredentials.errorMessage = some "Invalid username or password") ∧
    (∀ acc, findCredential crypt st (jsToLower (jsTrim u)) p = some acc →
      ((normalizeStatus acc = "active" ∨ normalizeStatus acc = "pending") →
        (loginExec crypt none st u p sid now).outcome = .success sid acc ∧
        (LoginOutcome.success sid acc).httpStatus = 200) ∧
      (normalizeStatus acc = "inactive" →
        (loginExec crypt none st u p sid now).outcome = .forbidden "User account is inactive" ∧
        (LoginOutcome.forbidden "User account is inactive").httpStatus = 403) ∧
      (USER_STATUSES.contains (normalizeStatus acc) = false →
        (loginExec crypt none st u p sid now).outcome =
          .forbidden "User status does not permit login" ∧
        (LoginOutcome.forbidden "User status does not permit login").httpStatus = 403)) := by
  constructor
  · intro hnone
    refine ⟨?_, rfl, rfl⟩
    simp [loginExec, hu, hp, hnone]
  · intro acc hacc
    refine ⟨?_, ?_, ?_⟩
    · rintro (hs | hs) <;>
        exact ⟨by simp [loginExec, hu, hp, hacc, hs, USER_STATUSES], rfl⟩
    · intro hs
      exact ⟨by simp [loginExec, hu, hp, hacc, hs, USER_STATUSES], rfl⟩
    · intro hs
      have hni : normalizeStatus acc ≠ "inactive" := by
        intro hcontra
        rw [hcontra] at hs
        simp [USER_STATUSES] at hs
      have hmem : normalizeStatus acc ∉ USER_STATUSES := by simpa using hs
      exact ⟨by simp [loginExec, hu, hp, hacc, hmem, hni], rfl⟩

/-- C3 witness: concrete runs of each exit against a four-account store,
with crypt modelled as returning the password (a hash matches exactly when
it equals the password). -/
theorem login_outcomes_witness :
    (loginExec (fun pw _ => pw) none
        ⟨[⟨1, "alice", "A", "active", "pw", false, none, 0⟩,
          ⟨2, "bob", "B", "inactive", "pw", false, none, 0⟩,
          ⟨3, "carol", "C", "banned", "pw", false, none, 0⟩], []⟩
        " Alice" "pw" "s1" 7).outcome =
      .success "s1" ⟨1, "alice", "A", "active", "pw", false, none, 0⟩ ∧
    (loginExec (fun pw _ => pw) none
        ⟨[⟨1, "alice", "A", "active", "pw", false, none, 0⟩,
          ⟨2, "bob", "B", "inactive", "pw", false, none, 0⟩,
          ⟨3, "carol", "C", "banned", "pw", false, none, 0⟩], []⟩
        "alice" "wrong" "s1" 7).outcome = .invalidCredentials ∧
    (loginExec (fun pw _ => pw) none
        ⟨[⟨1, "alice", "A", "active", "pw", false, none, 0⟩,
          ⟨2, "bob", "B", "inactive", "pw", false, none, 0⟩,
          ⟨3, "carol", "C", "banned", "pw", false, none, 0⟩], []⟩
        "bob" "pw" "s1" 7).outcome = .forbidden "User account is inactive" ∧
    (loginExec (fun pw _ => pw) none
        ⟨[⟨1, "alice", "A", "active", "pw", false, none, 0⟩,
          ⟨2, "bob", "B", "inactive", "pw", false, none, 0⟩,
          ⟨3, "carol", "C", "banned", "pw", false, none, 0⟩], []⟩
        "carol" "pw" "s1" 7).outcome = .forbidden "User status does not permit login" := by
  refine ⟨?_, ?_, ?_, ?_⟩
  · exact (((login_outcomes (fun pw _ => pw) _ " Alice" "pw" "s1" 7 (by decide) (by decide)).2
      ⟨1, "alice", "A", "active", "pw", false, none, 0⟩ (by decide)).1 (Or.inl (by decide))).1
  · exact ((login_outcomes (fun pw _ => pw) _ "alice" "wrong" "s1" 7 (by decide) (by decide)).1
      (by decide)).1
  · exact (((login_outcomes (fun pw _ => pw) _ "bob" "pw" "s1" 7 (by decide) (by decide)).2
      ⟨2, "bob", "B", "inactive", "pw", false, none, 0⟩ (by decide)).2.1 (by decide)).1
  · exact (((login_outcomes (fun pw _ => pw) _ "carol" "pw" "s1" 7 (by decide) (by decide)).2
      ⟨3, "carol", "C", "banned", "pw", false, none, 0⟩ (by decide)).2.2 (by decide)).1

/-- Deleting the same session id twice is the same as deleting it once. -/
theorem deleteSession_idem (sid : String) (st : Store) :
    deleteSession sid (deleteSession sid st) = deleteSession sid st := by
  simp [deleteSession, List.filter_filter]

/-- C5: logout is idempotent.  Every logout request — whatever session
material it carries — answers 204 with the cookie cleared; when a truthy
session id is extracted, the named session row is absent from the store
afterwards; and running logout again on the resulting store returns the
very same result, so a second call (or a call with an absent or unknown id)
never errors. -/
theorem logout_idempotent (decode : String → String) (st : Store) (req : Request) :
    (logout decode st req).status = 204 ∧
    (logout decode st req).cookieCleared = true ∧
    (∀ sid, extractSessionId decode req = some sid → sid ≠ "" →
      ∀ s ∈ (logout decode st req).store.sessions, s.session_id ≠ sid) ∧
    logout decode (logout decode st req).store req = logout decode st req := by
  cases h : extractSessionId decode req with
  | none => simp [logout, h]
  | some sid =>
      by_cases hsid : sid = ""
      · subst hsid
        simp [logout, h]
      · refine ⟨by simp [logout, h, hsid], by simp [logout, h, hsid], ?_, ?_⟩
        · intro sid' hsid' _
          injection hsid' with he
          subst he
          simp [logout, h, hsid, deleteSession]
        · simp [logout, h, hsid, deleteSession_idem]

/-- C5 witness: a concrete logout with an existing session answers 204,
removes the named row, and a repeat run is a no-op. -/
theorem logout_idempotent_witness :
    (logout (fun s => s) ⟨[], [⟨"sid1", 1⟩, ⟨"other", 2⟩]⟩
        ⟨"POST", "/auth/logout", some "cm_session=sid1", none, none⟩).status = 204 ∧
    (∀ s ∈ (logout (fun s => s) ⟨[], [⟨"sid1", 1⟩, ⟨"other", 2⟩]⟩
        ⟨"POST", "/auth/logout", some "cm_session=sid1", none, none⟩).store.sessions,
      s.session_id ≠ "sid1") ∧
    logout (fun s => s)
        (logout (fun s => s) ⟨[], [⟨"sid1", 1⟩, ⟨"other", 2⟩]⟩
          ⟨"POST", "/auth/logout", some "cm_session=sid1", none, none⟩).store
        ⟨"POST", "/auth/logout", some "cm_session=sid1", none, none⟩ =
      logout (fun s => s) ⟨[], [⟨"sid1", 1⟩, ⟨"other", 2⟩]⟩
        ⟨"POST", "/auth/logout", some "cm_session=sid1", none, none⟩ :=
  ⟨(logout_idempotent (fun s => s) ⟨[], [⟨"sid1", 1⟩, ⟨"other", 2⟩]⟩
      ⟨"POST", "/auth/logout", some "cm_session=sid1", none, none⟩).1,
   (logout_idempotent (fun s => s) ⟨[], [⟨"sid1", 1⟩, ⟨"other", 2⟩]⟩
      ⟨"POST", "/auth/logout", some "cm_session=sid1", none, none⟩).2.2.1
     "sid1" (by decide) (by decide),
   (logout_idempotent (fun s => s) ⟨[], [⟨"sid1", 1⟩, ⟨"other", 2⟩]⟩
      ⟨"POST", "/auth/logout", some "cm_session=sid1", none, none⟩).2.2.2⟩

/-- C6: session-id extraction resolves sources in order.  The named session
cookie, when present in a truthy cookie header, always wins and its decoded
value is returned (even over present later sources); failing that, a
X-Session-Id header with non-blank trim wins and is returned trimmed;
failing that, a non-empty trimmed token after a case-insensitive "Bearer "
start of the Authorization header is returned; and when all three sources
are absent the extraction yields none. -/
theorem extract_session_id_priority (decode : String → String) (req : Request) :
    (∀ ch raw, req.cookieHeader = some ch → ch ≠ "" →
      cookieSessionValue ch = some raw →
      extractSessionId decode req = some (decode raw)) ∧
    ((∀ ch, req.cookieHeader = some ch → ch = "" ∨ cookieSessionValue ch = none) →
      ∀ h, req.xSessionId = some h → jsTrim h ≠ "" →
        extractSessionId decode req = some (jsTrim h)) ∧
    ((∀ ch, req.cookieHeader = some ch → ch = "" ∨ cookieSessionValue ch = none) →
      (∀ h, req.xSessionId = some h → jsTrim h = "") →
      ∀ a, req.authorization = some a →
        strStartsWith (jsToLower a) "bearer " = true → jsTrim (a.drop 7) ≠ "" →
        extractSessionId decode req = some (jsTrim (a.drop 7))) ∧
    (req.cookieHeader = none → req.xSessionId = none → req.authorization = none →
      extractSessionId decode req = none) := by
  refine ⟨?_, ?_, ?_, ?_⟩
  · intro ch raw h1 h2 h3
    simp [extractSessionId, h1, h2, h3]
  · intro hcm h hh hne
    cases hc : req.cookieHeader with
    | none => simp [extractSessionId, hc, hh, hne]
    | some ch =>
        rcases hcm ch hc with hch | hch <;>
          simp [extractSessionId, hc, hch, hh, hne]
  · intro hcm hhm a ha hstart hne
    have hbt : bearerToken a = some (jsTrim (a.drop 7)) := by
      simp [bearerToken, hstart, hne]
    cases hc : req.cookieHeader with
    | none =>
        cases hx : req.xSessionId with
        | none => simp [extractSessionId, hc, hx, ha, hbt]
        | some hdr => simp [extractSessionId, hc, hx, ha, hbt, hhm hdr hx]
    | some ch =>
        rcases hcm ch hc with hch | hch <;>
          cases hx : req.xSessionId with
          | none => simp [extractSessionId, hc, hch, hx, ha, hbt]
          | some hdr => simp [extractSessionId, hc, hch, hx, ha, hbt, hhm hdr hx]
  · intro h1 h2 h3
    simp [extractSessionId, h1, h2, h3]

/-- C6 witness: the cookie wins over a present header; the header wins when
the cookie has no session entry; the bearer token wins when both earlier
sources are blank; all three absent yields none. -/
theorem extract_session_id_priority_witness :
    extractSessionId (fun s => s)
        ⟨"GET", "/x", some "a=b; cm_session=xyz", some "hdr", some "Bearer tok"⟩ =
      some "xyz" ∧
    extractSessionId (fun s => s) ⟨"GET", "/x", some "a=b", some " hdr ", none⟩ =
      some "hdr" ∧
    extractSessionId (fun s => s) ⟨"GET", "/x", none, some "  ", some "BeArEr  tok "⟩ =
      some "tok" ∧
    extractSessionId (fun s => s) ⟨"GET", "/x", none, none, none⟩ = none := by
  refine ⟨?_, ?_, ?_, ?_⟩
  · exact (extract_session_id_priority (fun s => s)
      ⟨"GET", "/x", some "a=b; cm_session=xyz", some "hdr", some "Bearer tok"⟩).1
      "a=b; cm_session=xyz" "xyz" rfl (by decide) (by decide)
  · exact (extract_session_id_priority (fun s => s)
      ⟨"GET", "/x", some "a=b", some " hdr ", none⟩).2.1
      (fun ch hch => by injection hch with he; subst he; exact Or.inr (by decide))
      " hdr " rfl (by decide)
  · exact (extract_session_id_priority (fun s => s)
      ⟨"GET", "/x", none, some "  ", some "BeArEr  tok "⟩).2.2.1
      (fun ch hch => by exact Option.noConfusion hch)
      (fun h hh => by injection hh with he; subst he; decide)
      "BeArEr  tok " rfl (by decide) (by decide)
  · exact (extract_session_id_priority (fun s => s)
      ⟨"GET", "/x", none, none, none⟩).2.2.2 rfl rfl rfl

/-- Entries produced by the sanitisation loops carry the field they came
from, so a key the body maps to nothing is absent from the result. -/
theorem lookup_filterMap_of_none {f : String → Option (String × JsVal)}
    (hf : ∀ k kv, f k = some kv → kv.1 = k) (l : List String) (k : String)
    (h : f k = none) : (l.filterMap f).lookup k = none := by
  induction l with
  | nil => rfl
  | cons a t ih =>
      cases hfa : f a with
      | none => simpa [List.filterMap_cons, hfa] using ih
      | some kv =>
          obtain ⟨k1, v1⟩ := kv
          have hk : k1 = a := hf a (k1, v1) hfa
          subst hk
          by_cases hak : k1 = k
          · subst hak
            rw [hfa] at h
            exact Option.noConfusion h
          · have hb : (k == k1) = false := beq_eq_false_iff_ne.mpr (fun he => hak he.symm)
            simp [List.filterMap_cons, hfa, List.lookup, hb, ih]

/-- A key of the whitelist the body maps to an entry appears in the result
with exactly that entry's value. -/
theorem lookup_filterMap_of_mem {f : String → Option (String × JsVal)}
    (hf : ∀ k kv, f k = some kv → kv.1 = k) (l : List String) (k : String)
    (w : JsVal) (hmem : k ∈ l) (hfk : f k = some (k, w)) :
    (l.filterMap f).lookup k = some w := by
  induction l with
  | nil => cases hmem
  | cons a t ih =>
      by_cases hak : a = k
      · subst hak
        simp [List.filterMap_cons, hfk, List.lookup]
      · have hmem' : k ∈ t := by
          rcases List.mem_cons.mp hmem with h | h
          · exact absurd h.symm hak
          · exact h
        cases hfa : f a with
        | none => simpa [List.filterMap_cons, hfa] using ih hmem'
        | some kv =>
            obtain ⟨k1, v1⟩ := kv
            have hk : k1 = a := hf a (k1, v1) hfa
            subst hk
            have hb : (k == k1) = false := beq_eq_false_iff_ne.mpr (fun he => hak he.symm)
            simpa [List.filterMap_cons, hfa, List.lookup, hb] using ih hmem'

/-- A key outside the whitelist never appears in the result. -/
theorem lookup_filterMap_of_not_mem {f : String → Option (String × JsVal)}
    (hf : ∀ k kv, f k = some kv → kv.1 = k) (l : List String) (k : String)
    (hmem : k ∉ l) : (l.filterMap f).lookup k = none := by
  induction l with
  | nil => rfl
  | cons a t ih =>
      have hak : a ≠ k := fun he => hmem (he ▸ List.mem_cons_self a t)
      have hmem' : k ∉ t := fun hm => hmem (List.mem_cons_of_mem a hm)
      cases hfa : f a with
      | none => simpa [List.filterMap_cons, hfa] using ih hmem'
      | some kv =>
          obtain ⟨k1, v1⟩ := kv
          have hk : k1 = a := hf a (k1, v1) hfa
          subst hk
          have hb : (k == k1) = false := beq_eq_false_iff_ne.mpr (fun he => hak he.symm)
          simpa [List.filterMap_cons, hfa, List.lookup, hb] using ih hmem'

/-- The create loop's body keeps the key it was given. -/
theorem createBody_key (p : Payload) (k : String) (kv : String × JsVal)
    (h : (match p.lookup k with
          | none => none
          | some .vUndef => none
          | some v => some (k, sanitizeField k v)) = some kv) : kv.1 = k := by
  revert h
  cases hv : p.lookup k with
  | none => intro h; exact Option.noConfusion h
  | some v =>
      cases v <;> intro h <;>
        first
          | exact Option.noConfusion h
          | · injection h with h1
              rw [← h1]

/-- The patch loop's body keeps the key it was given. -/
theorem patchBody_key (p : Payload) (k : String) (kv : String × JsVal)
    (h : (match p.lookup k with
          | none => none
          | some v => some (k, sanitizeField k v)) = some kv) : kv.1 = k := by
  revert h
  cases hv : p.lookup k with
  | none => intro h; exact Option.noConfusion h
  | some v =>
      intro h
      injection h with h1
      rw [← h1]

/-- The boolean coercion yields null or a boolean, never a string. -/
theorem coerceBoolean_shape (v : JsVal) :
    coerceBoolean v = .vNull ∨ ∃ b, coerceBoolean v = .vBool b := by
  unfold coerceBoolean
  split
  · exact Or.inl rfl
  · split
    · exact Or.inr ⟨_, rfl⟩
    · split
      · exact Or.inr ⟨_, rfl⟩
      · split
        · exact Or.inr ⟨_, rfl⟩
        · exact Or.inl rfl

/-- The integer coercion yields null or a finite number, never a string. -/
theorem coerceInteger_shape (v : JsVal) :
    coerceInteger v = .vNull ∨ ∃ q : ℚ, coerceInteger v = .vNum (.finite q) := by
  unfold coerceInteger
  split
  · exact Or.inl rfl
  · split
    · exact Or.inr ⟨_, rfl⟩
    · exact Or.inl rfl

/-- On the auto_renew field the sanitisation body is exactly the boolean
coercion: its output is never a string, so the trim and empty-string steps
leave it alone. -/
theorem sanitizeField_auto_renew (v : JsVal) :
    sanitizeField "auto_renew" v = coerceBoolean v := by
  rcases coerceBoolean_shape v with h | ⟨b, h⟩ <;>
    simp [sanitizeField, INTEGER_FIELDS, h]

/-- On an integer-typed field the sanitisation body is exactly the integer
coercion. -/
theorem sanitizeField_integer (k : String) (v : JsVal)
    (hk : INTEGER_FIELDS.contains k = true) : sanitizeField k v = coerceInteger v := by
  have hkm : k ∈ INTEGER_FIELDS := by simpa using hk
  have hne : k ≠ "auto_renew" := by
    simp [INTEGER_FIELDS] at hkm
    rcases hkm with rfl | rfl | rfl | rfl <;> decide
  rcases coerceInteger_shape v with h | ⟨q, h⟩ <;>
    simp [sanitizeField, hne, hkm, h]

/-- Values whose host-language string normalizes into the true vocabulary
coerce to true. -/
theorem coerceBoolean_true (v : JsVal)
    (h : BOOL_TRUE_TOKENS.contains (normalizeToken v) = true) :
    coerceBoolean v = .vBool true := by
  have hm : normalizeToken v ∈ BOOL_TRUE_TOKENS := by simpa using h
  cases v with
  | vNull => exact absurd h (by decide)
  | vUndef => exact absurd h (by decide)
  | vBool b =>
      cases b with
      | true => decide
      | false => exact absurd h (by decide)
  | vNum n => simp [coerceBoolean, hm]
  | vStr s =>
      by_cases hs : s = ""
      · subst hs; exact absurd h (by decide)
      · simp [coerceBoolean, hm, hs]

/-- Values whose host-language string normalizes into the false vocabulary
coerce to false. -/
theorem coerceBoolean_false (v : JsVal)
    (h : BOOL_FALSE_TOKENS.contains (normalizeToken v) = true) :
    coerceBoolean v = .vBool false := by
  have hm : normalizeToken v ∈ BOOL_FALSE_TOKENS := by simpa using h
  have ht : normalizeToken v ∉ BOOL_TRUE_TOKENS := by
    simp [BOOL_FALSE_TOKENS] at hm
    rcases hm with hm | hm | hm | hm | hm <;> rw [hm] <;> decide
  cases v with
  | vNull => exact absurd h (by decide)
  | vUndef => exact absurd h (by decide)
  | vBool b =>
      cases b with
      | true => exact absurd h (by decide)
      | false => decide
  | vNum n => simp [coerceBoolean, hm, ht]
  | vStr s =>
      by_cases hs : s = ""
      · subst hs; exact absurd h (by decide)
      · simp [coerceBoolean, hm, ht, hs]

/-- Values outside both vocabularies coerce to null. -/
theorem coerceBoolean_null (v : JsVal)
    (hT : BOOL_TRUE_TOKENS.contains (normalizeToken v) = false)
    (hF : BOOL_FALSE_TOKENS.contains (normalizeToken v) = false) :
    coerceBoolean v = .vNull := by
  have hmT : normalizeToken v ∉ BOOL_TRUE_TOKENS := by simpa using hT
  have hmF : normalizeToken v ∉ BOOL_FALSE_TOKENS := by simpa using hF
  cases v with
  | vNull => rfl
  | vUndef => rfl
  | vBool b =>
      cases b with
      | true => exact absurd hT (by decide)
      | false => exact absurd hF (by decide)
  | vNum n => simp [coerceBoolean, hmT, hmF]
  | vStr s =>
      by_cases hs : s = ""
      · subst hs; rfl
      · simp [coerceBoolean, hmT, hmF, hs]

/-- C7: payload sanitisation for the contract entity.  Create omits every
whitelisted field whose value is absent or undefined; patch includes a field
whenever its key is present, explicit null included, with the shared
per-field coercion applied; the boolean field maps the true vocabulary to
true, the false vocabulary to false and anything else to null; the
integer-typed fields parse numerically with non-finite results becoming
null; string values are trimmed with empty results becoming null; and keys
outside the whitelist never appear in either result. -/
theorem payload_sanitization :
    (∀ (p : Payload) (k : String),
      p.lookup k = none ∨ p.lookup k = some .vUndef →
      (sanitizeCreatePayload p).lookup k = none) ∧
    (∀ (p : Payload) (k : String) (v : JsVal),
      k ∈ FIELDS → p.lookup k = some v →
      (sanitizePatchPayload p).lookup k = some (sanitizeField k v)) ∧
    (∀ v : JsVal,
      (BOOL_TRUE_TOKENS.contains (normalizeToken v) = true →
        sanitizeField "auto_renew" v = .vBool true) ∧
      (BOOL_FALSE_TOKENS.contains (normalizeToken v) = true →
        sanitizeField "auto_renew" v = .vBool false) ∧
      (BOOL_TRUE_TOKENS.contains (normalizeToken v) = false →
       BOOL_FALSE_TOKENS.contains (normalizeToken v) = false →
        sanitizeField "auto_renew" v = .vNull)) ∧
    (∀ (k : String) (v : JsVal) (q : ℚ), INTEGER_FIELDS.contains k = true →
      (v ≠ .vNull → v ≠ .vUndef → v ≠ .vStr "" → jsToNumber v = .finite q →
        sanitizeField k v = .vNum (.finite ((ratTrunc q : ℤ) : ℚ))) ∧
      ((jsToNumber v = .nan ∨ jsToNumber v = .posInf ∨ jsToNumber v = .negInf) →
        sanitizeField k v = .vNull)) ∧
    (∀ (k s : String), k ≠ "auto_renew" → INTEGER_FIELDS.contains k = false →
      sanitizeField k (.vStr s) = (if jsTrim s = "" then .vNull else .vStr (jsTrim s))) ∧
    (∀ (p : Payload) (k : String), k ∉ FIELDS →
      (sanitizeCreatePayload p).lookup k = none ∧
      (sanitizePatchPayload p).lookup k = none) := by
  refine ⟨?_, ?_, ?_, ?_, ?_, ?_⟩
  · intro p k h
    refine lookup_filterMap_of_none (createBody_key p) FIELDS k ?_
    rcases h with h | h <;> rw [h]
  · intro p k v hmem h
    cases v with
    | vUndef => exact lookup_filterMap_of_mem (patchBody_key p) FIELDS k _ hmem (by rw [h])
    | vNull => exact lookup_filterMap_of_mem (patchBody_key p) FIELDS k _ hmem (by rw [h])
    | vBool b => exact lookup_filterMap_of_mem (patchBody_key p) FIELDS k _ hmem (by rw [h])
    | vNum n => exact lookup_filterMap_of_mem (patchBody_key p) FIELDS k _ hmem (by rw [h])
    | vStr s => exact lookup_filterMap_of_mem (patchBody_key p) FIELDS k _ hmem (by rw [h])
  · intro v
    refine ⟨?_, ?_, ?_⟩
    · intro h; rw [sanitizeField_auto_renew]; exact coerceBoolean_true v h
    · intro h; rw [sanitizeField_auto_renew]; exact coerceBoolean_false v h
    · intro hT hF; rw [sanitizeField_auto_renew]; exact coerceBoolean_null v hT hF
  · intro k v q hk
    constructor
    · intro h1 h2 h3 h4
      rw [sanitizeField_integer k v hk]
      simp [coerceInteger, h1, h2, h3, h4]
    · intro h
      rw [sanitizeField_integer k v hk]
      unfold coerceInteger
      split
      · rfl
      · rcases h with h | h | h <;> simp [h]
  · intro k s h1 h2
    have hm : k ∉ INTEGER_FIELDS := by simpa using h2
    by_cases hs : jsTrim s = "" <;> simp [sanitizeField, h1, hm, hs]
  · intro p k hmem
    exact ⟨lookup_filterMap_of_not_mem (createBody_key p) FIELDS k hmem,
           lookup_filterMap_of_not_mem (patchBody_key p) FIELDS k hmem⟩

/-- C7 witness: concrete payloads exercising omission, explicit-null
inclusion, the boolean vocabulary, integer parsing and trimming. -/
theorem payload_sanitization_witness :
    (sanitizeCreatePayload [("title", .vStr "x"), ("notes", .vUndef)]).lookup "end_date" =
      none ∧
    (sanitizeCreatePayload [("title", .vStr "x"), ("notes", .vUndef)]).lookup "notes" =
      none ∧
    (sanitizePatchPayload [("end_date", .vNull)]).lookup "end_date" =
      some (sanitizeField "end_date" .vNull) ∧
    sanitizeField "auto_renew" (.vStr " YES ") = .vBool true ∧
    sanitizeField "auto_renew" (.vStr "off") = .vBool false ∧
    sanitizeField "auto_renew" (.vStr "maybe") = .vNull ∧
    sanitizeField "renewal_term_months" (.vStr " 7 ") = .vNum (.finite 7) ∧
    sanitizeField "status_id" (.vStr "zzz") = .vNull ∧
    sanitizeField "title" (.vStr "  hi  ") = .vStr "hi" ∧
    (sanitizeCreatePayload [("bogus", .vStr "x")]).lookup "bogus" = none := by
  refine ⟨?_, ?_, ?_, ?_, ?_, ?_, ?_, ?_, ?_, ?_⟩
  · exact payload_sanitization.1 [("title", .vStr "x"), ("notes", .vUndef)] "end_date"
      (Or.inl (by decide))
  · exact payload_sanitization.1 [("title", .vStr "x"), ("notes", .vUndef)] "notes"
      (Or.inr (by decide))
  · exact payload_sanitization.2.1 [("end_date", .vNull)] "end_date" .vNull
      (by decide) (by decide)
  · exact (payload_sanitization.2.2.1 (.vStr " YES ")).1 (by decide)
  · exact (payload_sanitization.2.2.1 (.vStr "off")).2.1 (by decide)
  · exact (payload_sanitization.2.2.1 (.vStr "maybe")).2.2 (by decide) (by decide)
  · exact (payload_sanitization.2.2.2.1 "renewal_term_months" (.vStr " 7 ") 7
      (by decide)).1 (by decide) (by decide) (by decide) (by decide)
  · exact (payload_sanitization.2.2.2.1 "status_id" (.vStr "zzz") 0 (by decide)).2
      (Or.inl (by decide))
  · have h := payload_sanitization.2.2.2.2.1 "title" "  hi  " (by decide) (by decide)
    simpa using h
  · exact (payload_sanitization.2.2.2.2.2 [("bogus", .vStr "x")] "bogus" (by decide)).1

theorem setKeyEntry_hit (k : String) (v : JsVal) (a : String) (b : JsVal)
    (h : a = k) : setKeyEntry k v (a, b) = (k, v) := by
  simp [setKeyEntry, h]

theorem setKeyEntry_miss (k : String) (v : JsVal) (a : String) (b : JsVal)
    (h : ¬a = k) : setKeyEntry k v (a, b) = (a, b) := by
  simp [setKeyEntry, h]

/-- Re-assigning a key that is present makes its binding the new value. -/
theorem lookup_map_setKey_self (k : String) (v : JsVal) :
    ∀ p : Payload, (p.lookup k).isSome = true →
      (p.map (setKeyEntry k v)).lookup k = some v := by
  intro p
  induction p with
  | nil => intro h; simp [List.lookup] at h
  | cons kv t ih =>
      obtain ⟨a, b⟩ := kv
      intro h
      by_cases hak : a = k
      · rw [List.map_cons, setKeyEntry_hit k v a b hak]
        simp [List.lookup]
      · have hb : (k == a) = false := beq_eq_false_iff_ne.mpr (fun he => hak he.symm)
        have h' : (t.lookup k).isSome = true := by simpa [List.lookup, hb] using h
        rw [List.map_cons, setKeyEntry_miss k v a b hak]
        simpa [List.lookup, hb] using ih h'

/-- Appending a binding for an absent key makes its lookup the new value. -/
theorem lookup_append_single_self (k : String) (v : JsVal) :
    ∀ p : Payload, p.lookup k = none → (p ++ [(k, v)]).lookup k = some v := by
  intro p
  induction p with
  | nil => intro _; simp [List.lookup]
  | cons kv t ih =>
      obtain ⟨a, b⟩ := kv
      intro h
      cases hb : (k == a) with
      | true => simp [List.lookup, hb] at h
      | false =>
          have h' : t.lookup k = none := by simpa [List.lookup, hb] using h
          simpa [List.lookup, hb] using ih h'

/-- After a field assignment the assigned key reads back the new value. -/
theorem lookup_setKey_self (p : Payload) (k : String) (v : JsVal) :
    (setKey p k v).lookup k = some v := by
  by_cases h : (p.lookup k).isSome = true
  · rw [setKey, if_pos h]
    exact lookup_map_setKey_self k v p h
  · have h' : p.lookup k = none := by
      cases hl : p.lookup k with
      | none => rfl
      | some w => rw [hl] at h; simp at h
    rw [setKey, if_neg h]
    exact lookup_append_single_self k v p h'

theorem lookup_map_setKey_ne (k k' : String) (v : JsVal) (hne : k' ≠ k) :
    ∀ p : Payload, (p.map (setKeyEntry k v)).lookup k' = p.lookup k' := by
  intro p
  induction p with
  | nil => rfl
  | cons kv t ih =>
      obtain ⟨a, b⟩ := kv
      by_cases hak : a = k
      · rw [List.map_cons, setKeyEntry_hit k v a b hak]
        have hbk : (k' == k) = false := beq_eq_false_iff_ne.mpr hne
        have hba : (k' == a) = false := beq_eq_false_iff_ne.mpr (hak ▸ hne)
        simp [List.lookup, hbk, hba, ih]
      · rw [List.map_cons, setKeyEntry_miss k v a b hak]
        cases hb : (k' == a) with
        | true => simp [List.lookup, hb]
        | false => simp [List.lookup, hb, ih]

theorem lookup_append_single_ne (k k' : String) (v : JsVal) (hne : k' ≠ k) :
    ∀ p : Payload, (p ++ [(k, v)]).lookup k' = p.lookup k' := by
  intro p
  induction p with
  | nil =>
      have hb : (k' == k) = false := beq_eq_false_iff_ne.mpr hne
      simp [List.lookup, hb]
  | cons kv t ih =>
      obtain ⟨a, b⟩ := kv
      cases hb : (k' == a) with
      | true => simp [List.lookup, hb]
      | false => simp [List.lookup, hb, ih]

/-- A field assignment leaves every other key's binding unchanged. -/
theorem lookup_setKey_ne (p : Payload) (k k' : String) (v : JsVal) (hne : k' ≠ k) :
    (setKey p k v).lookup k' = p.lookup k' := by
  by_cases h : (p.lookup k).isSome = true
  · rw [setKey, if_pos h]
    exact lookup_map_setKey_ne k k' v hne p
  · rw [setKey, if_neg h]
    exact lookup_append_single_ne k k' v hne p

/-- The department block touches only the department_id binding. -/
theorem resolveDeptStep_lookup_ne (t : LookupTables) (data : Payload) (k : String)
    (h : k ≠ "department_id") :
    (resolveDeptStep t data).lookup k = data.lookup k := by
  unfold resolveDeptStep
  repeat' split
  all_goals first
    | rfl
    | exact lookup_setKey_ne data "department_id" k _ h

/-- The status block touches only the status_id binding. -/
theorem resolveStatusStep_lookup_ne (t : LookupTables) (data : Payload) (k : String)
    (h : k ≠ "status_id") :
    (resolveStatusStep t data).lookup k = data.lookup k := by
  unfold resolveStatusStep
  repeat' split
  all_goals first
    | rfl
    | exact lookup_setKey_ne data "status_id" k _ h

theorem resolveDeptStep_resolves (t : LookupTables) (data : Payload) (s : String) (i : ℤ)
    (hid : isNullish (data.lookup "department_id") = true)
    (hname : data.lookup "department" = some (.vStr s)) (hs : jsTrim s ≠ "")
    (hl : lookupByNameCI t.departments (jsTrim s) = some i) :
    resolveDeptStep t data = setKey data "department_id" (.vNum (.finite (i : ℚ))) := by
  simp [resolveDeptStep, hid, hname, hs, hl]

theorem resolveDeptStep_unresolved (t : LookupTables) (data : Payload) (s : String)
    (hid : isNullish (data.lookup "department_id") = true)
    (hname : data.lookup "department" = some (.vStr s)) (hs : jsTrim s ≠ "")
    (hl : lookupByNameCI t.departments (jsTrim s) = none) :
    resolveDeptStep t data = data := by
  simp [resolveDeptStep, hid, hname, hs, hl]

theorem resolveDeptStep_skip (t : LookupTables) (data : Payload)
    (hid : isNullish (data.lookup "department_id") = false) :
    resolveDeptStep t data = data := by
  simp [resolveDeptStep, hid]

theorem resolveStatusStep_resolves (t : LookupTables) (data : Payload) (s : String) (i : ℤ)
    (hid : isNullish (data.lookup "status_id") = true)
    (hname : data.lookup "status" = some (.vStr s)) (hs : jsTrim s ≠ "")
    (hl : lookupByNameCI t.statuses (jsTrim s) = some i) :
    resolveStatusStep t data = setKey data "status_id" (.vNum (.finite (i : ℚ))) := by
  simp [resolveStatusStep, hid, hname, hs, hl]

theorem resolveStatusStep_unresolved (t : LookupTables) (data : Payload) (s : String)
    (hid : isNullish (data.lookup "status_id") = true)
    (hname : data.lookup "status" = some (.vStr s)) (hs : jsTrim s ≠ "")
    (hl : lookupByNameCI t.statuses (jsTrim s) = none) :
    resolveStatusStep t data = data := by
  simp [resolveStatusStep, hid, hname, hs, hl]

theorem resolveStatusStep_skip (t : LookupTables) (data : Payload)
    (hid : isNullish (data.lookup "status_id") = false) :
    resolveStatusStep t data = data := by
  simp [resolveStatusStep, hid]

/-- C8: foreign-key name resolution on contract create and patch.  For each
of the department and status pairs: when the numeric id is null or absent
and the name field is a string with non-blank trim, the case-insensitive
exact lookup substitutes the resolved id; a name that resolves to no row
raises no error (the function is total) and leaves the id binding exactly
as it was; and when the numeric id is already present the name is ignored
and the id binding is unchanged. -/
theorem resolve_ids_from_names_lookup (t : LookupTables) (data : Payload) :
    (∀ s i, isNullish (data.lookup "department_id") = true →
      data.lookup "department" = some (.vStr s) → jsTrim s ≠ "" →
      lookupByNameCI t.departments (jsTrim s) = some i →
      (resolveIdsFromNames t data).lookup "department_id" =
        some (.vNum (.finite (i : ℚ)))) ∧
    (∀ s, isNullish (data.lookup "department_id") = true →
      data.lookup "department" = some (.vStr s) → jsTrim s ≠ "" →
      lookupByNameCI t.departments (jsTrim s) = none →
      (resolveIdsFromNames t data).lookup "department_id" =
        data.lookup "department_id") ∧
    (isNullish (data.lookup "department_id") = false →
      (resolveIdsFromNames t data).lookup "department_id" =
        data.lookup "department_id") ∧
    (∀ s i, isNullish (data.lookup "status_id") = true →
      data.lookup "status" = some (.vStr s) → jsTrim s ≠ "" →
      lookupByNameCI t.statuses (jsTrim s) = some i →
      (resolveIdsFromNames t data).lookup "status_id" =
        some (.vNum (.finite (i : ℚ)))) ∧
    (∀ s, isNullish (data.lookup "status_id") = true →
      data.lookup "status" = some (.vStr s) → jsTrim s ≠ "" →
      lookupByNameCI t.statuses (jsTrim s) = none →
      (resolveIdsFromNames t data).lookup "status_id" = data.lookup "status_id") ∧
    (isNullish (data.lookup "status_id") = false →
      (resolveIdsFromNames t data).lookup "status_id" = data.lookup "status_id") := by
  refine ⟨?_, ?_, ?_, ?_, ?_, ?_⟩
  · intro s i hid hname hs hl
    rw [resolveIdsFromNames, resolveDeptStep_resolves t data s i hid hname hs hl,
      resolveStatusStep_lookup_ne t _ "department_id" (by decide),
      lookup_setKey_self]
  · intro s hid hname hs hl
    rw [resolveIdsFromNames, resolveDeptStep_unresolved t data s hid hname hs hl,
      resolveStatusStep_lookup_ne t data "department_id" (by decide)]
  · intro hid
    rw [resolveIdsFromNames, resolveDeptStep_skip t data hid,
      resolveStatusStep_lookup_ne t data "department_id" (by decide)]
  · intro s i hid hname hs hl
    have hid' : isNullish ((resolveDeptStep t data).lookup "status_id") = true := by
      rw [resolveDeptStep_lookup_ne t data "status_id" (by decide)]
      exact hid
    have hname' : (resolveDeptStep t data).lookup "status" = some (.vStr s) := by
      rw [resolveDeptStep_lookup_ne t data "status" (by decide)]
      exact hname
    rw [resolveIdsFromNames, resolveStatusStep_resolves t _ s i hid' hname' hs hl,
      lookup_setKey_self]
  · intro s hid hname hs hl
    have hid' : isNullish ((resolveDeptStep t data).lookup "status_id") = true := by
      rw [resolveDeptStep_lookup_ne t data "status_id" (by decide)]
      exact hid
    have hname' : (resolveDeptStep t data).lookup "status" = some (.vStr s) := by
      rw [resolveDeptStep_lookup_ne t data "status" (by decide)]
      exact hname
    rw [resolveIdsFromNames, resolveStatusStep_unresolved t _ s hid' hname' hs hl,
      resolveDeptStep_lookup_ne t data "status_id" (by decide)]
  · intro hid
    have hid' : isNullish ((resolveDeptStep t data).lookup "status_id") = false := by
      rw [resolveDeptStep_lookup_ne t data "status_id" (by decide)]
      exact hid
    rw [resolveIdsFromNames, resolveStatusStep_skip t _ hid',
      resolveDeptStep_lookup_ne t data "status_id" (by decide)]

/-- C8 witness: against concrete tables, " legal " resolves
case-insensitively to department 1; a present numeric status_id is left
alone though a status name is also supplied; an unresolvable status name
leaves the id absent without error. -/
theorem resolve_ids_from_names_witness :
    (resolveIdsFromNames ⟨[(1, "Legal"), (2, "Sales")], [(5, "Active")]⟩
        [("department", .vStr " legal "), ("status", .vStr "Active"),
         ("status_id", .vNum (.finite 9))]).lookup "department_id" =
      some (.vNum (.finite ((1 : ℤ) : ℚ))) ∧
    (resolveIdsFromNames ⟨[(1, "Legal"), (2, "Sales")], [(5, "Active")]⟩
        [("department", .vStr " legal "), ("status", .vStr "Active"),
         ("status_id", .vNum (.finite 9))]).lookup "status_id" =
      some (.vNum (.finite 9)) ∧
    (resolveIdsFromNames ⟨[(1, "Legal"), (2, "Sales")], [(5, "Active")]⟩
        [("status", .vStr "zz")]).lookup "status_id" = none := by
  refine ⟨?_, ?_, ?_⟩
  · exact (resolve_ids_from_names_lookup ⟨[(1, "Legal"), (2, "Sales")], [(5, "Active")]⟩
      [("department", .vStr " legal "), ("status", .vStr "Active"),
       ("status_id", .vNum (.finite 9))]).1 " legal " 1
      (by decide) (by decide) (by decide) (by decide)
  · exact ((resolve_ids_from_names_lookup ⟨[(1, "Legal"), (2, "Sales")], [(5, "Active")]⟩
      [("department", .vStr " legal "), ("status", .vStr "Active"),
       ("status_id", .vNum (.finite 9))]).2.2.2.2.2 (by decide)).trans (by decide)
  · exact ((resolve_ids_from_names_lookup ⟨[(1, "Legal"), (2, "Sales")], [(5, "Active")]⟩
      [("status", .vStr "zz")]).2.2.2.2.1 "zz"
      (by decide) (by decide) (by decide) (by decide)).trans (by decide)

end ContractApi
